import Mathlib

/-!
# Verification of the pywrapper conversion / invocation kernel

Shallow embedding of `src/Linux/pywrapper.h` (namespace `Python`), a C++
wrapper around the Python 2.7 C API.  Dynamic Python objects are modelled by
the inductive `PyObj`; native C++ values handled by the conversion engine are
modelled by the untyped value inductive `NVal` together with the native type
codes `NTy` and a typing relation `HasTy`.  The header's `convert` overload
family (decode, with a by-reference out-parameter) becomes a function
`NTy → PyObj → NVal → Bool × NVal` returning the success flag together with
the final state of the out-parameter; the `alloc_pyobject` overload family
(encode) becomes `NVal → Option PyObj`, where `none` models "no overload
exists", i.e. a compile-time error in C++, for native types that have no
encoder.

The non-template scalar codecs (`convert` for `std::string`, `bool`,
`double`, `std::vector<char>` and their `alloc_pyobject` counterparts) are
declared in the header but defined in a `pywrapper.cpp` that is not among
the sources; those cases are modelled from the spec and are marked as such
below.
-/

namespace Python

/-- A dynamic (Python 2.7) runtime object, by structure:
`PyInt` (holding a C `long`), `PyBool`, `PyFloat` (its 64-bit pattern is
carried opaquely), a string object used as text, a string object used as a
byte buffer, `PyTuple`, `PyList`, and `PyDict` (modelled as its entry
sequence in iteration order; `PyDict_Next` enumerates entries in this
order). -/
inductive PyObj : Type where
  | int : Int → PyObj
  | bool : Bool → PyObj
  | float : Nat → PyObj
  | str : String → PyObj
  | bytes : List Nat → PyObj
  | tuple : List PyObj → PyObj
  | list : List PyObj → PyObj
  | dict : List (PyObj × PyObj) → PyObj

/-- Codes for the native C++ types the conversion engine is instantiated at:
integral types (signedness and bit width), `bool`, `double`, `std::string`,
`std::vector<char>` (byte buffer), `std::tuple<T0..Tn-1>`,
`std::vector<T>`/`std::list<T>` (both are converted through the same
`convert_list`/`alloc_list` code, so one code covers both), and
`std::map<K,V>`. -/
inductive NTy : Type where
  | integral : Bool → Nat → NTy
  | boolean : NTy
  | floating : NTy
  | strty : NTy
  | bytebuf : NTy
  | tup : List NTy → NTy
  | vec : NTy → NTy
  | mp : NTy → NTy → NTy

/-- Untyped native values.  `intv` carries the mathematical value stored in
an integral variable; `dblv` carries the opaque 64-bit pattern of a `double`;
`mapv` models a `std::map` by its entry sequence (kept key-unique by
`Map.insert` below; insertion order is taken as the canonical order of the
sequence, which is adequate because `std::map` equality does not depend on
any particular enumeration order). -/
inductive NVal : Type where
  | intv : Int → NVal
  | boolv : Bool → NVal
  | dblv : Nat → NVal
  | strv : String → NVal
  | bytesv : List Nat → NVal
  | tupv : List NVal → NVal
  | seqv : List NVal → NVal
  | mapv : List (NVal × NVal) → NVal

/-! Decidable equality for the two nested inductives, written out by hand
(the automatic derivation does not handle nested inductive types). -/

mutual
def PyObj.deq : (a b : PyObj) → Decidable (a = b)
  | .int x, .int y =>
      match decEq x y with
      | isTrue h => isTrue (by rw [h])
      | isFalse h => isFalse (fun hh => h (by injection hh))
  | .int _, .bool _ => isFalse (fun h => by injection h)
  | .int _, .float _ => isFalse (fun h => by injection h)
  | .int _, .str _ => isFalse (fun h => by injection h)
  | .int _, .bytes _ => isFalse (fun h => by injection h)
  | .int _, .tuple _ => isFalse (fun h => by injection h)
  | .int _, .list _ => isFalse (fun h => by injection h)
  | .int _, .dict _ => isFalse (fun h => by injection h)
  | .bool _, .int _ => isFalse (fun h => by injection h)
  | .bool x, .bool y =>
      match decEq x y with
      | isTrue h => isTrue (by rw [h])
      | isFalse h => isFalse (fun hh => h (by injection hh))
  | .bool _, .float _ => isFalse (fun h => by injection h)
  | .bool _, .str _ => isFalse (fun h => by injection h)
  | .bool _, .bytes _ => isFalse (fun h => by injection h)
  | .bool _, .tuple _ => isFalse (fun h => by injection h)
  | .bool _, .list _ => isFalse (fun h => by injection h)
  | .bool _, .dict _ => isFalse (fun h => by injection h)
  | .float _, .int _ => isFalse (fun h => by injection h)
  | .float _, .bool _ => isFalse (fun h => by injection h)
  | .float x, .float y =>
      match decEq x y with
      | isTrue h => isTrue (by rw [h])
      | isFalse h => isFalse (fun hh => h (by injection hh))
  | .float _, .str _ => isFalse (fun h => by injection h)
  | .float _, .bytes _ => isFalse (fun h => by injection h)
  | .float _, .tuple _ => isFalse (fun h => by injection h)
  | .float _, .list _ => isFalse (fun h => by injection h)
  | .float _, .dict _ => isFalse (fun h => by injection h)
  | .str _, .int _ => isFalse (fun h => by injection h)
  | .str _, .bool _ => isFalse (fun h => by injection h)
  | .str _, .float _ => isFalse (fun h => by injection h)
  | .str x, .str y =>
      match decEq x y with
      | isTrue h => isTrue (by rw [h])
      | isFalse h => isFalse (fun hh => h (by injection hh))
  | .str _, .bytes _ => isFalse (fun h => by injection h)
  | .str _, .tuple _ => isFalse (fun h => by injection h)
  | .str _, .list _ => isFalse (fun h => by injection h)
  | .str _, .dict _ => isFalse (fun h => by injection h)
  | .bytes _, .int _ => isFalse (fun h => by injection h)
  | .bytes _, .bool _ => isFalse (fun h => by injection h)
  | .bytes _, .float _ => isFalse (fun h => by injection h)
  | .bytes _, .str _ => isFalse (fun h => by injection h)
  | .bytes x, .bytes y =>
      match decEq x y with
      | isTrue h => isTrue (by rw [h])
      | isFalse h => isFalse (fun hh => h (by injection hh))
  | .bytes _, .tuple _ => isFalse (fun h => by injection h)
  | .bytes _, .list _ => isFalse (fun h => by injection h)
  | .bytes _, .dict _ => isFalse (fun h => by injection h)
  | .tuple _, .int _ => isFalse (fun h => by injection h)
  | .tuple _, .bool _ => isFalse (fun h => by injection h)
  | .tuple _, .float _ => isFalse (fun h => by injection h)
  | .tuple _, .str _ => isFalse (fun h => by injection h)
  | .tuple _, .bytes _ => isFalse (fun h => by injection h)
  | .tuple x, .tuple y =>
      match PyObj.deqList x y with
      | isTrue h => isTrue (by rw [h])
      | isFalse h => isFalse (fun hh => h (by injection hh))
  | .tuple _, .list _ => isFalse (fun h => by injection h)
  | .tuple _, .dict _ => isFalse (fun h => by injection h)
  | .list _, .int _ => isFalse (fun h => by injection h)
  | .list _, .bool _ => isFalse (fun h => by injection h)
  | .list _, .float _ => isFalse (fun h => by injection h)
  | .list _, .str _ => isFalse (fun h => by injection h)
  | .list _, .bytes _ => isFalse (fun h => by injection h)
  | .list _, .tuple _ => isFalse (fun h => by injection h)
  | .list x, .list y =>
      match PyObj.deqList x y with
      | isTrue h => isTrue (by rw [h])
      | isFalse h => isFalse (fun hh => h (by injection hh))
  | .list _, .dict _ => isFalse (fun h => by injection h)
  | .dict _, .int _ => isFalse (fun h => by injection h)
  | .dict _, .bool _ => isFalse (fun h => by injection h)
  | .dict _, .float _ => isFalse (fun h => by injection h)
  | .dict _, .str _ => isFalse (fun h => by injection h)
  | .dict _, .bytes _ => isFalse (fun h => by injection h)
  | .dict _, .tuple _ => isFalse (fun h => by injection h)
  | .dict _, .list _ => isFalse (fun h => by injection h)
  | .dict x, .dict y =>
      match PyObj.deqPairs x y with
      | isTrue h => isTrue (by rw [h])
      | isFalse h => isFalse (fun hh => h (by injection hh))
  termination_by a b => sizeOf a

def PyObj.deqList : (a b : List PyObj) → Decidable (a = b)
  | [], [] => isTrue rfl
  | [], _ :: _ => isFalse (fun h => by injection h)
  | _ :: _, [] => isFalse (fun h => by injection h)
  | x :: xs, y :: ys =>
      match PyObj.deq x y, PyObj.deqList xs ys with
      | isTrue h1, isTrue h2 => isTrue (by rw [h1, h2])
      | isFalse h1, _ => isFalse (fun hh => by injection hh with e1 e2; exact h1 e1)
      | _, isFalse h2 => isFalse (fun hh => by injection hh with e1 e2; exact h2 e2)
  termination_by a b => sizeOf a

def PyObj.deqPairs : (a b : List (PyObj × PyObj)) → Decidable (a = b)
  | [], [] => isTrue rfl
  | [], _ :: _ => isFalse (fun h => by injection h)
  | _ :: _, [] => isFalse (fun h => by injection h)
  | (k1, v1) :: xs, (k2, v2) :: ys =>
      match PyObj.deq k1 k2, PyObj.deq v1 v2, PyObj.deqPairs xs ys with
      | isTrue h1, isTrue h2, isTrue h3 => isTrue (by rw [h1, h2, h3])
      | isFalse h1, _, _ =>
          isFalse (fun hh => by
            injection hh with e1 e2; exact h1 (congrArg Prod.fst e1))
      | _, isFalse h2, _ =>
          isFalse (fun hh => by
            injection hh with e1 e2; exact h2 (congrArg Prod.snd e1))
      | _, _, isFalse h3 =>
          isFalse (fun hh => by injection hh with e1 e2; exact h3 e2)
  termination_by a b => sizeOf a
end

mutual
def NVal.deq : (a b : NVal) → Decidable (a = b)
  | .intv x, .intv y =>
      match decEq x y with
      | isTrue h => isTrue (by rw [h])
      | isFalse h => isFalse (fun hh => h (by injection hh))
  | .intv _, .boolv _ => isFalse (fun h => by injection h)
  | .intv _, .dblv _ => isFalse (fun h => by injection h)
  | .intv _, .strv _ => isFalse (fun h => by injection h)
  | .intv _, .bytesv _ => isFalse (fun h => by injection h)
  | .intv _, .tupv _ => isFalse (fun h => by injection h)
  | .intv _, .seqv _ => isFalse (fun h => by injection h)
  | .intv _, .mapv _ => isFalse (fun h => by injection h)
  | .boolv _, .intv _ => isFalse (fun h => by injection h)
  | .boolv x, .boolv y =>
      match decEq x y with
      | isTrue h => isTrue (by rw [h])
      | isFalse h => isFalse (fun hh => h (by injection hh))
  | .boolv _, .dblv _ => isFalse (fun h => by injection h)
  | .boolv _, .strv _ => isFalse (fun h => by injection h)
  | .boolv _, .bytesv _ => isFalse (fun h => by injection h)
  | .boolv _, .tupv _ => isFalse (fun h => by injection h)
  | .boolv _, .seqv _ => isFalse (fun h => by injection h)
  | .boolv _, .mapv _ => isFalse (fun h => by injection h)
  | .dblv _, .intv _ => isFalse (fun h => by injection h)
  | .dblv _, .boolv _ => isFalse (fun h => by injection h)
  | .dblv x, .dblv y =>
      match decEq x y with
      | isTrue h => isTrue (by rw [h])
      | isFalse h => isFalse (fun hh => h (by injection hh))
  | .dblv _, .strv _ => isFalse (fun h => by injection h)
  | .dblv _, .bytesv _ => isFalse (fun h => by injection h)
  | .dblv _, .tupv _ => isFalse (fun h => by injection h)
  | .dblv _, .seqv _ => isFalse (fun h => by injection h)
  | .dblv _, .mapv _ => isFalse (fun h => by injection h)
  | .strv _, .intv _ => isFalse (fun h => by injection h)
  | .strv _, .boolv _ => isFalse (fun h => by injection h)
  | .strv _, .dblv _ => isFalse (fun h => by injection h)
  | .strv x, .strv y =>
      match decEq x y with
      | isTrue h => isTrue (by rw [h])
      | isFalse h => isFalse (fun hh => h (by injection hh))
  | .strv _, .bytesv _ => isFalse (fun h => by injection h)
  | .strv _, .tupv _ => isFalse (fun h => by injection h)
  | .strv _, .seqv _ => isFalse (fun h => by injection h)
  | .strv _, .mapv _ => isFalse (fun h => by injection h)
  | .bytesv _, .intv _ => isFalse (fun h => by injection h)
  | .bytesv _, .boolv _ => isFalse (fun h => by injection h)
  | .bytesv _, .dblv _ => isFalse (fun h => by injection h)
  | .bytesv _, .strv _ => isFalse (fun h => by injection h)
  | .bytesv x, .bytesv y =>
      match decEq x y with
      | isTrue h => isTrue (by rw [h])
      | isFalse h => isFalse (fun hh => h (by injection hh))
  | .bytesv _, .tupv _ => isFalse (fun h => by injection h)
  | .bytesv _, .seqv _ => isFalse (fun h => by injection h)
  | .bytesv _, .mapv _ => isFalse (fun h => by injection h)
  | .tupv _, .intv _ => isFalse (fun h => by injection h)
  | .tupv _, .boolv _ => isFalse (fun h => by injection h)
  | .tupv _, .dblv _ => isFalse (fun h => by injection h)
  | .tupv _, .strv _ => isFalse (fun h => by injection h)
  | .tupv _, .bytesv _ => isFalse (fun h => by injection h)
  | .tupv x, .tupv y =>
      match NVal.deqList x y with
      | isTrue h => isTrue (by rw [h])
      | isFalse h => isFalse (fun hh => h (by injection hh))
  | .tupv _, .seqv _ => isFalse (fun h => by injection h)
  | .tupv _, .mapv _ => isFalse (fun h => by injection h)
  | .seqv _, .intv _ => isFalse (fun h => by injection h)
  | .seqv _, .boolv _ => isFalse (fun h => by injection h)
  | .seqv _, .dblv _ => isFalse (fun h => by injection h)
  | .seqv _, .strv _ => isFalse (fun h => by injection h)
  | .seqv _, .bytesv _ => isFalse (fun h => by injection h)
  | .seqv _, .tupv _ => isFalse (fun h => by injection h)
  | .seqv x, .seqv y =>
      match NVal.deqList x y with
      | isTrue h => isTrue (by rw [h])
      | isFalse h => isFalse (fun hh => h (by injection hh))
  | .seqv _, .mapv _ => isFalse (fun h => by injection h)
  | .mapv _, .intv _ => isFalse (fun h => by injection h)
  | .mapv _, .boolv _ => isFalse (fun h => by injection h)
  | .mapv _, .dblv _ => isFalse (fun h => by injection h)
  | .mapv _, .strv _ => isFalse (fun h => by injection h)
  | .mapv _, .bytesv _ => isFalse (fun h => by injection h)
  | .mapv _, .tupv _ => isFalse (fun h => by injection h)
  | .mapv _, .seqv _ => isFalse (fun h => by injection h)
  | .mapv x, .mapv y =>
      match NVal.deqPairs x y with
      | isTrue h => isTrue (by rw [h])
      | isFalse h => isFalse (fun hh => h (by injection hh))
  termination_by a b => sizeOf a

def NVal.deqList : (a b : List NVal) → Decidable (a = b)
  | [], [] => isTrue rfl
  | [], _ :: _ => isFalse (fun h => by injection h)
  | _ :: _, [] => isFalse (fun h => by injection h)
  | x :: xs, y :: ys =>
      match NVal.deq x y, NVal.deqList xs ys with
      | isTrue h1, isTrue h2 => isTrue (by rw [h1, h2])
      | isFalse h1, _ => isFalse (fun hh => by injection hh with e1 e2; exact h1 e1)
      | _, isFalse h2 => isFalse (fun hh => by injection hh with e1 e2; exact h2 e2)
  termination_by a b => sizeOf a

def NVal.deqPairs : (a b : List (NVal × NVal)) → Decidable (a = b)
  | [], [] => isTrue rfl
  | [], _ :: _ => isFalse (fun h => by injection h)
  | _ :: _, [] => isFalse (fun h => by injection h)
  | (k1, v1) :: xs, (k2, v2) :: ys =>
      match NVal.deq k1 k2, NVal.deq v1 v2, NVal.deqPairs xs ys with
      | isTrue h1, isTrue h2, isTrue h3 => isTrue (by rw [h1, h2, h3])
      | isFalse h1, _, _ =>
          isFalse (fun hh => by
            injection hh with e1 e2; exact h1 (congrArg Prod.fst e1))
      | _, isFalse h2, _ =>
          isFalse (fun hh => by
            injection hh with e1 e2; exact h2 (congrArg Prod.snd e1))
      | _, _, isFalse h3 =>
          isFalse (fun hh => by injection hh with e1 e2; exact h3 e2)
  termination_by a b => sizeOf a
end


instance : DecidableEq PyObj := PyObj.deq

instance : DecidableEq NVal := NVal.deq

/-- Two's-complement narrowing of a mathematical integer into a `w`-bit
integral type (`s = true` for a signed type).  This is the effect of the C++
assignment `val = PyInt_AsLong(obj);` when `val` has a `w`-bit integral
type, and of the argument conversion in `PyInt_FromLong(num)` (there with
`s = true`, `w = 64`: the width of `long` on the target platform). -/
def wrap (s : Bool) (w : Nat) (v : Int) : Int :=
  if s ∧ 2 ^ (w - 1) ≤ v % 2 ^ w then v % 2 ^ w - 2 ^ w
  else v % 2 ^ w

/-- The representable range of a `w`-bit integral type. -/
def inRange (s : Bool) (w : Nat) (v : Int) : Prop :=
  if s then -(2 ^ (w - 1)) ≤ v ∧ v < 2 ^ (w - 1) else 0 ≤ v ∧ v < 2 ^ w

instance (s : Bool) (w : Nat) (v : Int) : Decidable (inRange s w v) := by
  cases s <;> simp only [inRange] <;> exact inferInstance

mutual
/-- The value of a default-initialised C++ variable `T val;` of each native
type: containers start empty.  For scalars, default-initialisation leaves
the value indeterminate in C++; the conversion code never reads a scalar
before writing it, so the placeholder chosen here is never observable. -/
def defaultVal : NTy → NVal
  | .integral _ _ => .intv 0
  | .boolean => .boolv false
  | .floating => .dblv 0
  | .strty => .strv ""
  | .bytebuf => .bytesv []
  | .tup ts => .tupv (defaultVals ts)
  | .vec _ => .seqv []
  | .mp _ _ => .mapv []
  termination_by t => sizeOf t

def defaultVals : List NTy → List NVal
  | [] => []
  | t :: ts => defaultVal t :: defaultVals ts
  termination_by ts => sizeOf ts
end

/-- `std::map<K,V>::insert(std::make_pair(key, val))`: inserts only when no
entry with an equivalent key is present (it never overwrites). -/
def Map.insert (mp : List (NVal × NVal)) (k v : NVal) : List (NVal × NVal) :=
  if mp.any (fun e => decide (e.1 = k)) then mp else mp ++ [(k, v)]

/-- `PyDict_SetItem(dict, key, val)` at the level of the dict's entry
sequence: replaces the value of an existing equal key, otherwise appends a
new entry. -/
def pyDictSetItem (d : List (PyObj × PyObj)) (k v : PyObj) :
    List (PyObj × PyObj) :=
  if d.any (fun e => decide (e.1 = k)) then
    d.map (fun e => if e.1 = k then (k, v) else e)
  else d ++ [(k, v)]

mutual
/-- The `convert` overload family of the header (decode): given the native
target type, the dynamic object, and the prior contents of the by-reference
out-parameter, return the success flag together with the final contents of
the out-parameter.

* integral (header lines 54-60): `PyInt_Check`, then
  `val = PyInt_AsLong(obj);` — an unchecked narrowing store.
* `bool` / `double` / `std::string` / `std::vector<char>`: declared in the
  header, defined in the missing `pywrapper.cpp`.  Modelled from the spec:
  "checks the dynamic object's runtime-reported type tag; on mismatch
  returns false without mutating `native_out`; on match extracts the value
  (byte buffers reuse the dynamic object's backing storage length to size
  the native copy)".
* tuple (lines 77-83): `PyTuple_Check` and an exact-size check, then
  `add_to_tuple<sizeof...(Args)-1>`.
* map (lines 85-101): `PyDict_Check`, then a `PyDict_Next` loop.
* vector / list (lines 103-122): `convert_list`.

The C++ out-parameter is well-typed by construction; when the untyped prior
value here does not have the container shape of the target type (a case
that is unreachable under `HasTy`-typed use), the model falls through to
the mismatch arm. -/
def convert : NTy → PyObj → NVal → Bool × NVal
  | .integral s w, .int n, _ => (true, .intv (wrap s w n))
  | .integral _ _, _, prior => (false, prior)
  | .boolean, .bool b, _ => (true, .boolv b)
  | .boolean, _, prior => (false, prior)
  | .floating, .float d, _ => (true, .dblv d)
  | .floating, _, prior => (false, prior)
  | .strty, .str s, _ => (true, .strv s)
  | .strty, _, prior => (false, prior)
  | .bytebuf, .bytes l, _ => (true, .bytesv l)
  | .bytebuf, _, prior => (false, prior)
  | .tup ts, .tuple l, .tupv vs =>
      if l.length = ts.length then
        let r := add_to_tuple ts l vs
        (r.1, .tupv r.2)
      else (false, .tupv vs)
  | .tup _, _, prior => (false, prior)
  | .vec t, .list os, .seqv acc =>
      let r := convert_list t os acc
      (r.1, .seqv r.2)
  | .vec _, _, prior => (false, prior)
  | .mp k v, .dict es, .mapv mp =>
      let r := convert_map k v es mp
      (r.1, .mapv r.2)
  | .mp _ _, _, prior => (false, prior)
  termination_by t _ _ => (sizeOf t, 1, 0)

/-- `add_to_tuple<n>` (header lines 64-75), viewed from element 0 upward:
element `i` of the dynamic tuple is converted into component `i` of the
native tuple, in ascending index order.  In the recursive case (line 73)
the C++ code DISCARDS the boolean result of the recursive call, so the
value returned for the whole chain is the conversion result of the LAST
element only.  (The three lists are componentwise aligned by the caller's
size check and by C++ typing; the empty-tuple instantiation does not
compile in C++ — it would instantiate `add_to_tuple<SIZE_MAX>` — and the
fall-through value chosen for it here is never relied on.) -/
def add_to_tuple : List NTy → List PyObj → List NVal → Bool × List NVal
  | [t], [o], [v] =>
      let r := convert t o v
      (r.1, [r.2])
  | t :: ts, o :: os, v :: vs =>
      let r := convert t o v
      let rest := add_to_tuple ts os vs
      (rest.1, r.2 :: rest.2)
  | _, _, vs => (false, vs)
  termination_by ts _ _ => (sizeOf ts, 2, 0)

/-- `convert_list` (header lines 103-114): for each element of the dynamic
list in ascending index order, default-construct a fresh `T val;`, convert
the element into it, return `false` at the first failing element (elements
already pushed remain in the container), and `push_back` it on success.
(The `PyList_Check` guard is in the caller arm of `convert` above.) -/
def convert_list (t : NTy) : List PyObj → List NVal → Bool × List NVal
  | [], acc => (true, acc)
  | o :: os, acc =>
      let r := convert t o (defaultVal t)
      if r.1 then convert_list t os (acc ++ [r.2]) else (false, acc)
  termination_by os _ => (sizeOf t, 2, os.length)

/-- The `PyDict_Next` loop of the map `convert` (header lines 89-99): for
each dict entry in iteration order, default-construct `K key;` and convert
the dynamic key (on failure return `false` at once), then `V val;` and
convert the dynamic value (on failure return `false` at once), then
`mp.insert(std::make_pair(key, val))`. -/
def convert_map (k v : NTy) :
    List (PyObj × PyObj) → List (NVal × NVal) → Bool × List (NVal × NVal)
  | [], mp => (true, mp)
  | e :: es, mp =>
      let rk := convert k e.1 (defaultVal k)
      if rk.1 then
        let rv := convert v e.2 (defaultVal v)
        if rv.1 then convert_map k v es (Map.insert mp rk.2 rv.2)
        else (false, mp)
      else (false, mp)
  termination_by es _ => (1 + sizeOf k + sizeOf v, 0, es.length)
end

mutual
/-- The `alloc_pyobject` overload family of the header (encode), as a partial
function: `some` is the dynamic object produced, `none` means that no
`alloc_pyobject` overload exists for the native type of the value — in C++ a
compile-time error, not a runtime failure.

* integral (header lines 155-158): `PyInt_FromLong(num)`; the argument
  conversion narrows the native value to `long` (signed, 64-bit).
* `std::string` / `bool` / `double` / full-buffer `std::vector<char>`:
  declared in the header (lines 147-162), defined in the missing
  `pywrapper.cpp`.  Modelled from the spec: encode is the total inverse
  mapping on these types, producing a fresh dynamic object of the matching
  runtime type.
* `std::vector<T>` and `std::list<T>` (lines 163-170): both delegate to
  `alloc_list`.
* `std::map<K,V>` (lines 171-183): `PyDict_New()` then `PyDict_SetItem` per
  entry in the native map's iteration order.
* `std::tuple`: the header declares NO `alloc_pyobject` overload for
  `std::tuple`, so encoding a native tuple (also nested inside a container)
  does not compile; modelled as `none`. -/
def alloc_pyobject : NVal → Option PyObj
  | .intv v => some (.int (wrap true 64 v))
  | .boolv b => some (.bool b)
  | .dblv d => some (.float d)
  | .strv s => some (.str s)
  | .bytesv l => some (.bytes l)
  | .tupv _ => none
  | .seqv l => (alloc_list l).map .list
  | .mapv es => (alloc_map [] es).map .dict
  termination_by v => (sizeOf v, 0)

/-- `alloc_list` (header lines 137-145): `PyList_New(container.size())`,
then `PyList_SetItem(lst, i++, alloc_pyobject(*it))` over the container in
iteration order, which stores the encoded elements at ascending indices
(`PyList_SetItem` steals the stored reference). -/
def alloc_list : List NVal → Option (List PyObj)
  | [] => some []
  | x :: xs =>
      match alloc_pyobject x, alloc_list xs with
      | some p, some ps => some (p :: ps)
      | _, _ => none
  termination_by l => (sizeOf l, 1)

/-- The `PyDict_SetItem` loop of the map `alloc_pyobject` (header lines
174-182): starting from the empty dict made by `PyDict_New()`, for each
native entry in iteration order do
`PyDict_SetItem(dict, alloc_pyobject(it->first), alloc_pyobject(it->second))`. -/
def alloc_map (d : List (PyObj × PyObj)) :
    List (NVal × NVal) → Option (List (PyObj × PyObj))
  | [] => some d
  | (kx, vx) :: es =>
      match alloc_pyobject kx, alloc_pyobject vx with
      | some pk, some pv => alloc_map (pyDictSetItem d pk pv) es
      | _, _ => none
  termination_by es => (sizeOf es, 1)
end

/-- Modelled from the spec: the second byte-buffer encoder
`alloc_pyobject(const std::vector<char> &val, size_t sz)` (declared at
header line 149, defined in the missing `pywrapper.cpp`), the encoding
"that copies a caller-specified prefix length". -/
def alloc_pyobject_sized (l : List Nat) (sz : Nat) : PyObj :=
  .bytes (l.take sz)

/-- `Object::add_tuple_var` (header lines 324-333):
`PyTuple_SetItem(tup.get(), i, pobj)` stores the dynamic object at index
`i` of the call tuple (the stored reference is stolen by the tuple).  The
tuple's slots are `none` (NULL) until set, as produced by `PyTuple_New`. -/
def add_tuple_var (tup : List (Option PyObj)) (i : Nat) (pobj : PyObj) :
    List (Option PyObj) :=
  tup.set i (some pobj)

/-- `Object::add_tuple_vars` (header lines 300-322): the head argument is
stored at index `PyTuple_Size(tup.get()) - sizeof...(tail) - 1` and the
tail is then processed recursively; the single-argument base cases store at
`PyTuple_Size(tup.get()) - 1`, which coincides with the recursive formula
at an empty tail.  Arguments appear here already encoded: each of the
base-case overloads stores `alloc_pyobject(arg)` (a `PyObject*` argument is
passed through as-is), one dynamic object per native argument.  The
variadic entry point is never reached with an empty argument pack — the
zero-argument `call_function` overload builds its empty tuple without
calling `add_tuple_vars` — so the `[]` arm below simply returns the tuple
unchanged. -/
def add_tuple_vars (tup : List (Option PyObj)) : List PyObj → List (Option PyObj)
  | [] => tup
  | a :: rest =>
      add_tuple_vars (add_tuple_var tup (tup.length - rest.length - 1) a) rest

/-- `Python::Object` (header lines 195-336): a Façade holding one shared
reference to a dynamic object. -/
structure Object : Type where
  py_obj : PyObj

/-- `Object::call_function` (header lines 223-234), after
`load_function(name)` has resolved the callable `func`: build a tuple of
`sizeof...(args)` NULL slots with `PyTuple_New`, pack the encoded arguments
into it with `add_tuple_vars`, invoke the runtime
(`PyObject_CallObject(func.get(), tup.get())`, abstracted here as the
function parameter `invoke`), throw
`std::runtime_error("Failed to call function " + name)` if that returned no
result, and otherwise wrap the returned (already-owned) reference in a new
`Object`.  The thrown exception is modelled as the `Except.error` carrying
the same message. -/
def call_function (invoke : PyObj → List (Option PyObj) → Option PyObj)
    (func : PyObj) (name : String) (args : List PyObj) : Except String Object :=
  let tup := add_tuple_vars (List.replicate args.length none) args
  match invoke func tup with
  | none => Except.error ("Failed to call function " ++ name)
  | some ret => Except.ok ⟨ret⟩

/-- Reference-count events observed by one dynamic object:
`alloc` — the object is created by `alloc_pyobject` with refcount 1, owned
by the caller; `incref` — the runtime increments the count; `decref` — some
owner releases its reference. -/
inductive RcEvent : Type where
  | alloc : RcEvent
  | incref : RcEvent
  | decref : RcEvent

/-- Net reference count of one object after a sequence of events. -/
def refcount (events : List RcEvent) : Int :=
  events.foldl
    (fun n e =>
      match e with
      | .alloc => n + 1
      | .incref => n + 1
      | .decref => n - 1)
    0

/-- The events seen by one freshly encoded LIST element during `alloc_list`
(header lines 137-145) and the eventual destruction of the produced list:
`alloc_pyobject(*it)` creates it with one reference owned by the encoder;
`PyList_SetItem` STEALS that reference (Python/C API contract — no
increment, the list takes over the caller's reference); the list's own
destruction releases the reference it holds.  The encoder performs no
`Py_DECREF` (none appears in `alloc_list`), and none is needed. -/
def listChildEvents : List RcEvent := [.alloc, .decref]

/-- The events seen by one freshly encoded dict KEY or VALUE during the map
`alloc_pyobject` (header lines 172-183) and the eventual destruction of the
produced dict: `alloc_pyobject(it->first)` (resp. `->second`) creates it
with one reference owned by the encoder; `PyDict_SetItem` does NOT steal —
per the Python/C API contract it increments the key's and the value's
counts, and the dict's destruction releases only the references the dict
itself acquired; the encoder performs no `Py_DECREF` (none appears in the
source), so the fresh reference from `alloc_pyobject` is never released. -/
def mapChildEvents : List RcEvent := [.alloc, .incref, .decref]

/-- The native types for which the header declares an `alloc_pyobject`
overload (recursively, for containers, of their element types as well):
everything except `std::tuple` at any nesting level.  For integral types
this also records the platform assumptions `0 < w` and `w ≤ 64` (no
standard integral type on the target is wider than `long`). -/
inductive EncTy : NTy → Prop where
  | integral : 0 < w → w ≤ 64 → EncTy (.integral s w)
  | boolean : EncTy .boolean
  | floating : EncTy .floating
  | strty : EncTy .strty
  | bytebuf : EncTy .bytebuf
  | vec : EncTy t → EncTy (.vec t)
  | mp : EncTy k → EncTy v → EncTy (.mp k v)

/-- Well-typedness of an untyped native value at a native type: integral
values are in the representable range of their type, containers are typed
componentwise, and a `std::map` value has pairwise distinct keys (a
`std::map` invariant). -/
inductive HasTy : NVal → NTy → Prop where
  | intv : inRange s w v → HasTy (.intv v) (.integral s w)
  | boolv : HasTy (.boolv b) .boolean
  | dblv : HasTy (.dblv d) .floating
  | strv : HasTy (.strv s) .strty
  | bytesv : HasTy (.bytesv l) .bytebuf
  | tupv : vs.length = ts.length → (∀ p ∈ List.zip vs ts, HasTy p.1 p.2) →
      HasTy (.tupv vs) (.tup ts)
  | seqv : (∀ x ∈ l, HasTy x t) → HasTy (.seqv l) (.vec t)
  | mapv : (∀ e ∈ l, HasTy (Prod.fst e) k) → (∀ e ∈ l, HasTy (Prod.snd e) v) →
      l.Pairwise (fun a b => a.1 ≠ b.1) → HasTy (.mapv l) (.mp k v)

/-! ## Characterisation lemmas

One equation per (native type, dynamic object) shape, plus a single lemma
for all runtime-type-tag mismatches, so that the later proofs never have to
unfold the well-founded definitions directly. -/

/-- The runtime type tag of a dynamic object (`PyInt_Check`,
`PyTuple_Check`, ... each test one tag). -/
def PyObj.tag : PyObj → Nat
  | .int _ => 0
  | .bool _ => 1
  | .float _ => 2
  | .str _ => 3
  | .bytes _ => 4
  | .tuple _ => 5
  | .list _ => 6
  | .dict _ => 7

/-- The runtime type tag a native type decodes from. -/
def NTy.tag : NTy → Nat
  | .integral _ _ => 0
  | .boolean => 1
  | .floating => 2
  | .strty => 3
  | .bytebuf => 4
  | .tup _ => 5
  | .vec _ => 6
  | .mp _ _ => 7

/-- `NTy.scalar t` holds when `t` is one of the five scalar codec types. -/
def NTy.scalar : NTy → Prop
  | .integral _ _ => True
  | .boolean => True
  | .floating => True
  | .strty => True
  | .bytebuf => True
  | _ => False

theorem convert_tag_mismatch (t : NTy) (obj : PyObj) (prior : NVal)
    (h : NTy.tag t ≠ PyObj.tag obj) : convert t obj prior = (false, prior) := by
  cases t <;> cases obj <;> simp_all [convert, NTy.tag, PyObj.tag]

theorem convert_integral_int (s : Bool) (w : Nat) (n : Int) (prior : NVal) :
    convert (.integral s w) (.int n) prior = (true, .intv (wrap s w n)) := by
  simp [convert]

theorem convert_boolean_bool (b : Bool) (prior : NVal) :
    convert .boolean (.bool b) prior = (true, .boolv b) := by
  simp [convert]

theorem convert_floating_float (d : Nat) (prior : NVal) :
    convert .floating (.float d) prior = (true, .dblv d) := by
  simp [convert]

theorem convert_strty_str (s : String) (prior : NVal) :
    convert .strty (.str s) prior = (true, .strv s) := by
  simp [convert]

theorem convert_bytebuf_bytes (l : List Nat) (prior : NVal) :
    convert .bytebuf (.bytes l) prior = (true, .bytesv l) := by
  simp [convert]

theorem convert_tup_tuple (ts : List NTy) (l : List PyObj) (vs : List NVal) :
    convert (.tup ts) (.tuple l) (.tupv vs) =
      if l.length = ts.length then
        ((add_to_tuple ts l vs).1, .tupv (add_to_tuple ts l vs).2)
      else (false, .tupv vs) := by
  rw [convert]

theorem convert_vec_list (t : NTy) (os : List PyObj) (acc : List NVal) :
    convert (.vec t) (.list os) (.seqv acc) =
      ((convert_list t os acc).1, .seqv (convert_list t os acc).2) := by
  rw [convert]

theorem convert_mp_dict (k v : NTy) (es : List (PyObj × PyObj))
    (mp : List (NVal × NVal)) :
    convert (.mp k v) (.dict es) (.mapv mp) =
      ((convert_map k v es mp).1, .mapv (convert_map k v es mp).2) := by
  rw [convert]

theorem convert_list_nil (t : NTy) (acc : List NVal) :
    convert_list t [] acc = (true, acc) := by
  rw [convert_list]

theorem convert_list_cons (t : NTy) (o : PyObj) (os : List PyObj)
    (acc : List NVal) :
    convert_list t (o :: os) acc =
      if (convert t o (defaultVal t)).1 then
        convert_list t os (acc ++ [(convert t o (defaultVal t)).2])
      else (false, acc) := by
  rw [convert_list]

theorem convert_map_nil (k v : NTy) (mp : List (NVal × NVal)) :
    convert_map k v [] mp = (true, mp) := by
  rw [convert_map]

theorem convert_map_cons (k v : NTy) (e : PyObj × PyObj)
    (es : List (PyObj × PyObj)) (mp : List (NVal × NVal)) :
    convert_map k v (e :: es) mp =
      if (convert k e.1 (defaultVal k)).1 then
        if (convert v e.2 (defaultVal v)).1 then
          convert_map k v es
            (Map.insert mp (convert k e.1 (defaultVal k)).2
              (convert v e.2 (defaultVal v)).2)
        else (false, mp)
      else (false, mp) := by
  rw [convert_map]

theorem add_to_tuple_single (t : NTy) (o : PyObj) (v : NVal) :
    add_to_tuple [t] [o] [v] =
      ((convert t o v).1, [(convert t o v).2]) := by
  rw [add_to_tuple]

theorem add_to_tuple_cons (t t' : NTy) (ts : List NTy) (o o' : PyObj)
    (os : List PyObj) (v v' : NVal) (vs : List NVal) :
    add_to_tuple (t :: t' :: ts) (o :: o' :: os) (v :: v' :: vs) =
      ((add_to_tuple (t' :: ts) (o' :: os) (v' :: vs)).1,
        (convert t o v).2 :: (add_to_tuple (t' :: ts) (o' :: os) (v' :: vs)).2) := by
  rw [add_to_tuple]
  simp

theorem alloc_intv (v : Int) :
    alloc_pyobject (.intv v) = some (.int (wrap true 64 v)) := by
  rw [alloc_pyobject]

theorem alloc_boolv (b : Bool) : alloc_pyobject (.boolv b) = some (.bool b) := by
  rw [alloc_pyobject]

theorem alloc_dblv (d : Nat) : alloc_pyobject (.dblv d) = some (.float d) := by
  rw [alloc_pyobject]

theorem alloc_strv (s : String) : alloc_pyobject (.strv s) = some (.str s) := by
  rw [alloc_pyobject]

theorem alloc_bytesv (l : List Nat) :
    alloc_pyobject (.bytesv l) = some (.bytes l) := by
  rw [alloc_pyobject]

theorem alloc_tupv (l : List NVal) : alloc_pyobject (.tupv l) = none := by
  rw [alloc_pyobject]

theorem alloc_seqv (l : List NVal) :
    alloc_pyobject (.seqv l) = (alloc_list l).map .list := by
  rw [alloc_pyobject]

theorem alloc_mapv (es : List (NVal × NVal)) :
    alloc_pyobject (.mapv es) = (alloc_map [] es).map .dict := by
  rw [alloc_pyobject]

theorem alloc_list_nil : alloc_list [] = some [] := by
  rw [alloc_list]

theorem alloc_list_cons (x : NVal) (xs : List NVal) :
    alloc_list (x :: xs) =
      match alloc_pyobject x, alloc_list xs with
      | some p, some ps => some (p :: ps)
      | _, _ => none := by
  rw [alloc_list]

theorem alloc_map_nil (d : List (PyObj × PyObj)) : alloc_map d [] = some d := by
  rw [alloc_map]

theorem alloc_map_cons (d : List (PyObj × PyObj)) (kx vx : NVal)
    (es : List (NVal × NVal)) :
    alloc_map d ((kx, vx) :: es) =
      match alloc_pyobject kx, alloc_pyobject vx with
      | some pk, some pv => alloc_map (pyDictSetItem d pk pv) es
      | _, _ => none := by
  rw [alloc_map]

/-! ## Arithmetic facts about the narrowing conversion -/

/-- `wrap` only changes an integer by a multiple of `2 ^ w`. -/
theorem wrap_emod (s : Bool) (w : Nat) (n : Int) :
    wrap s w n % 2 ^ w = n % 2 ^ w := by
  unfold wrap
  split
  · rw [Int.sub_emod, Int.emod_self, sub_zero, Int.emod_emod_of_dvd n dvd_rfl,
      Int.emod_emod_of_dvd n dvd_rfl]
  · exact Int.emod_emod_of_dvd n dvd_rfl

/-- A value already in range of the target type is unchanged by `wrap`. -/
theorem wrap_of_inRange (s : Bool) (w : Nat) (v : Int) (hw : 0 < w)
    (h : inRange s w v) : wrap s w v = v := by
  have hA : (0 : Int) < 2 ^ (w - 1) := pow_pos (by norm_num) _
  have hsplit : (2 : Int) ^ (w - 1) * 2 = 2 ^ w := by
    rw [← pow_succ]
    congr 1
    omega
  cases s with
  | false =>
      simp only [inRange] at h
      rw [if_neg (by simp)] at h
      unfold wrap
      rw [if_neg (by simp), Int.emod_eq_of_lt h.1 h.2]
  | true =>
      simp only [inRange] at h
      rw [if_pos (by simp)] at h
      rcases le_or_lt 0 v with hv | hv
      · have hmod : v % 2 ^ w = v := Int.emod_eq_of_lt hv (by omega)
        unfold wrap
        rw [hmod, if_neg (by omega)]
      · have hge : 0 ≤ v + 2 ^ w := by omega
        have hlt : v + 2 ^ w < 2 ^ w := by omega
        have hmod : v % 2 ^ w = v + 2 ^ w := by
          have h1 : (v + 2 ^ w * 1) % 2 ^ w = v % 2 ^ w :=
            Int.add_mul_emod_self_left v (2 ^ w) 1
          rw [mul_one] at h1
          rw [← h1, Int.emod_eq_of_lt hge hlt]
        unfold wrap
        rw [hmod, if_pos ⟨rfl, by omega⟩]
        omega

/-- `wrap` depends on its argument only through its residue `mod 2 ^ w`. -/
theorem wrap_congr (s : Bool) (w : Nat) {a b : Int} (h : a % 2 ^ w = b % 2 ^ w) :
    wrap s w a = wrap s w b := by
  unfold wrap
  rw [h]

/-- Narrowing the `long` produced by the widening conversion of an in-range
`w`-bit value recovers the value: the composition performed by
`PyInt_FromLong` followed by `val = PyInt_AsLong(obj)` is the identity on
the representable range whenever `w ≤ 64`. -/
theorem wrap_wrap64 (s : Bool) (w : Nat) (n : Int) (h1 : 0 < w) (h2 : w ≤ 64)
    (h : inRange s w n) : wrap s w (wrap true 64 n) = n := by
  have hdvd : (2 : Int) ^ w ∣ 2 ^ 64 := pow_dvd_pow 2 h2
  have hmod : wrap true 64 n % 2 ^ w = n % 2 ^ w := by
    calc wrap true 64 n % 2 ^ w
        = wrap true 64 n % 2 ^ 64 % 2 ^ w := (Int.emod_emod_of_dvd _ hdvd).symm
      _ = n % 2 ^ 64 % 2 ^ w := by rw [wrap_emod]
      _ = n % 2 ^ w := Int.emod_emod_of_dvd _ hdvd
  rw [wrap_congr s w hmod, wrap_of_inRange s w n h1 h]

/-! ## Default-value equations -/

theorem defaultVal_integral (s : Bool) (w : Nat) :
    defaultVal (.integral s w) = .intv 0 := by rw [defaultVal]

theorem defaultVal_boolean : defaultVal .boolean = .boolv false := by
  rw [defaultVal]

theorem defaultVal_floating : defaultVal .floating = .dblv 0 := by
  rw [defaultVal]

theorem defaultVal_strty : defaultVal .strty = .strv "" := by rw [defaultVal]

theorem defaultVal_bytebuf : defaultVal .bytebuf = .bytesv [] := by
  rw [defaultVal]

theorem defaultVal_vec (t : NTy) : defaultVal (.vec t) = .seqv [] := by
  rw [defaultVal]

theorem defaultVal_mp (k v : NTy) : defaultVal (.mp k v) = .mapv [] := by
  rw [defaultVal]

/-! ## Insertion into maps and dicts -/

/-- Inserting under a key absent from the map appends the new entry. -/
theorem Map.insert_fresh (mp : List (NVal × NVal)) (k v : NVal)
    (h : ∀ e ∈ mp, e.1 ≠ k) : Map.insert mp k v = mp ++ [(k, v)] := by
  unfold Map.insert
  rw [if_neg]
  simp only [List.any_eq_true, decide_eq_true_eq, not_exists]
  rintro e ⟨he, hek⟩
  exact h e he hek

/-- Storing under a key absent from the dict appends the new entry. -/
theorem pyDictSetItem_fresh (d : List (PyObj × PyObj)) (k v : PyObj)
    (h : ∀ e ∈ d, e.1 ≠ k) : pyDictSetItem d k v = d ++ [(k, v)] := by
  unfold pyDictSetItem
  rw [if_neg]
  simp only [List.any_eq_true, decide_eq_true_eq, not_exists]
  rintro e ⟨he, hek⟩
  exact h e he hek

/-- Folding `Map.insert` over pairwise-key-distinct entries, all of whose
keys are absent from the accumulator, appends the entries in order. -/
theorem insertAll_fresh :
    ∀ (l : List (NVal × NVal)) (mp : List (NVal × NVal)),
      (∀ x ∈ l, ∀ e ∈ mp, e.1 ≠ x.1) →
      l.Pairwise (fun a b => a.1 ≠ b.1) →
      l.foldl (fun m d => Map.insert m d.1 d.2) mp = mp ++ l := by
  intro l
  induction l with
  | nil => intro mp _ _; simp
  | cons x l ih =>
      intro mp hfresh hpw
      obtain ⟨hx, hpw'⟩ := List.pairwise_cons.mp hpw
      simp only [List.foldl_cons]
      rw [Map.insert_fresh mp x.1 x.2 (fun e he => hfresh x (by simp) e he)]
      rw [ih (mp ++ [x]) ?fr hpw']
      · simp
      case fr =>
        intro y hy e he
        rcases List.mem_append.mp he with he | he
        · exact hfresh y (by simp [hy]) e he
        · rw [List.mem_singleton.mp he]
          exact hx y hy

/-! ## Round-trip machinery -/

/-- One conversion round trip at type `t`: encoding the native value `x`
produces the dynamic object `p`, and decoding `p` into a
default-constructed fresh `T` recovers `x`. -/
def encodes (t : NTy) (x : NVal) (p : PyObj) : Prop :=
  alloc_pyobject x = some p ∧ convert t p (defaultVal t) = (true, x)

/-- A map entry round-trips componentwise. -/
def entryEncodes (k v : NTy) (e : NVal × NVal) (pe : PyObj × PyObj) : Prop :=
  encodes k e.1 pe.1 ∧ encodes v e.2 pe.2

theorem forall₂_mem_right {α β : Type} {R : α → β → Prop} :
    ∀ {l1 : List α} {l2 : List β}, List.Forall₂ R l1 l2 →
      ∀ b ∈ l2, ∃ a ∈ l1, R a b := by
  intro l1 l2 h
  induction h with
  | nil => simp
  | cons h1 _ ih =>
      intro b hb
      rcases List.mem_cons.mp hb with rfl | hb
      · exact ⟨_, by simp, h1⟩
      · obtain ⟨a, ha, hr⟩ := ih b hb
        exact ⟨a, by simp [ha], hr⟩

/-- If every element of the dynamic list decodes (from a fresh default) to
the corresponding native element, `convert_list` succeeds and appends
exactly the decoded elements, in order, to the output container. -/
theorem convert_list_success (t : NTy) {os : List PyObj} {ds : List NVal}
    (h : List.Forall₂ (fun o d => convert t o (defaultVal t) = (true, d)) os ds) :
    ∀ acc, convert_list t os acc = (true, acc ++ ds) := by
  induction h with
  | nil => intro acc; simp [convert_list_nil]
  | cons h1 _ ih =>
      intro acc
      rw [convert_list_cons]
      simp only [h1, if_true]
      rw [ih (acc ++ [_])]
      simp

/-- Processing a prefix of dict entries that all decode successfully folds
them into the accumulator with `Map.insert` and continues with the rest. -/
theorem convert_map_entries (k v : NTy) :
    ∀ {ps : List (PyObj × PyObj)} {l : List (NVal × NVal)},
      List.Forall₂ (fun pe e => convert k pe.1 (defaultVal k) = (true, e.1) ∧
        convert v pe.2 (defaultVal v) = (true, e.2)) ps l →
      ∀ (rest : List (PyObj × PyObj)) (mp : List (NVal × NVal)),
        convert_map k v (ps ++ rest) mp =
          convert_map k v rest (l.foldl (fun m d => Map.insert m d.1 d.2) mp) := by
  intro ps l h
  induction h with
  | nil => intro rest mp; simp
  | cons h1 _ ih =>
      intro rest mp
      rw [List.cons_append, convert_map_cons]
      simp only [h1.1, h1.2, if_true]
      rw [ih rest _]
      simp

/-- Encoding a list of native values whose elements all round-trip yields
the componentwise encoding. -/
theorem alloc_list_spec {t : NTy} :
    ∀ {l : List NVal}, (∀ x ∈ l, ∃ p, encodes t x p) →
      ∃ ps, alloc_list l = some ps ∧
        List.Forall₂ (fun o d => convert t o (defaultVal t) = (true, d)) ps l := by
  intro l
  induction l with
  | nil => intro _; exact ⟨[], alloc_list_nil, List.Forall₂.nil⟩
  | cons x l ih =>
      intro h
      obtain ⟨p, hp1, hp2⟩ := h x (by simp)
      obtain ⟨ps, hps1, hps2⟩ := ih (fun y hy => h y (by simp [hy]))
      refine ⟨p :: ps, ?al, List.Forall₂.cons hp2 hps2⟩
      rw [alloc_list_cons, hp1, hps1]

/-- A componentwise round-tripping entry list exists for a map whose keys
and values all round-trip. -/
theorem exists_entry_encodings {k v : NTy} :
    ∀ {l : List (NVal × NVal)},
      (∀ e ∈ l, ∃ p, encodes k e.1 p) → (∀ e ∈ l, ∃ p, encodes v e.2 p) →
      ∃ ps, List.Forall₂ (entryEncodes k v) l ps := by
  intro l
  induction l with
  | nil => exact fun _ _ => ⟨[], List.Forall₂.nil⟩
  | cons e l ih =>
      intro h1 h2
      obtain ⟨pk, hpk⟩ := h1 e (by simp)
      obtain ⟨pv, hpv⟩ := h2 e (by simp)
      obtain ⟨ps, hps⟩ :=
        ih (fun x hx => h1 x (by simp [hx])) (fun x hx => h2 x (by simp [hx]))
      exact ⟨(pk, pv) :: ps, List.Forall₂.cons ⟨hpk, hpv⟩ hps⟩

/-- Building the dict for a native map whose entries round-trip
componentwise and whose keys are pairwise distinct: every `PyDict_SetItem`
appends (no encoded key ever collides with an existing dict key, because
colliding dynamic keys would decode to equal native keys), so the final
dict holds exactly the encoded entries after the accumulated prefix. -/
theorem alloc_map_build (k v : NTy) :
    ∀ {l : List (NVal × NVal)} {ps : List (PyObj × PyObj)},
      List.Forall₂ (entryEncodes k v) l ps →
      l.Pairwise (fun a b => a.1 ≠ b.1) →
      ∀ d : List (PyObj × PyObj),
        (∀ pe ∈ ps, ∀ e ∈ d, e.1 ≠ pe.1) →
        alloc_map d l = some (d ++ ps) := by
  intro l ps h
  induction h with
  | nil => intro _ d _; simp [alloc_map_nil]
  | @cons e pe l' ps' h1 h2 ih =>
      intro hpw d hd
      obtain ⟨hx, hpw'⟩ := List.pairwise_cons.mp hpw
      obtain ⟨ek, ev⟩ := e
      obtain ⟨pk, pv⟩ := pe
      rw [alloc_map_cons, h1.1.1, h1.2.1]
      show alloc_map (pyDictSetItem d pk pv) l' = some (d ++ (pk, pv) :: ps')
      rw [pyDictSetItem_fresh d pk pv (fun e' he' => hd (pk, pv) (by simp) e' he')]
      rw [ih hpw' (d ++ [(pk, pv)]) ?fr]
      · simp
      case fr =>
        intro pe' hpe' e' he'
        rcases List.mem_append.mp he' with he' | he'
        · exact hd pe' (by simp [hpe']) e' he'
        · rw [List.mem_singleton.mp he']
          intro hkeq
          obtain ⟨a, ha, hra⟩ := forall₂_mem_right h2 pe' hpe'
          have h3 : convert k pk (defaultVal k) = (true, ek) := h1.1.2
          have h4 : convert k pe'.1 (defaultVal k) = (true, a.1) := hra.1.2
          rw [← hkeq] at h4
          rw [h3] at h4
          have : ek = a.1 := by
            have := congrArg Prod.snd h4
            simpa using this
          exact hx a ha (by simpa using this)

/-! ## Call-tuple packing -/

/-- Taking one past an updated index splits off the written element. -/
theorem take_set_succ {α : Type} :
    ∀ (l : List α) (i : Nat) (x : α), i < l.length →
      (l.set i x).take (i + 1) = l.take i ++ [x] := by
  intro l
  induction l with
  | nil => intro i x h; simp at h
  | cons a l ih =>
      intro i x h
      cases i with
      | zero => simp
      | succ n =>
          simp only [List.set_cons_succ, List.take_succ_cons, List.cons_append,
            List.nil_append]
          rw [ih n x (by simpa using h)]

/-- `add_tuple_vars` writes the arguments, in the order supplied, into the
trailing `args.length` slots of the tuple, leaving the leading slots
untouched. -/
theorem add_tuple_vars_spec :
    ∀ (args : List PyObj) (tup : List (Option PyObj)),
      args.length ≤ tup.length →
      add_tuple_vars tup args =
        tup.take (tup.length - args.length) ++ args.map some := by
  intro args
  induction args with
  | nil => intro tup h; simp [add_tuple_vars]
  | cons a rest ih =>
      intro tup h
      rw [add_tuple_vars]
      have hlen : (add_tuple_var tup (tup.length - rest.length - 1) a).length
          = tup.length := by
        simp [add_tuple_var]
      rw [ih _ (by rw [hlen]; simp at h; omega)]
      rw [hlen]
      have hi : tup.length - rest.length - 1 < tup.length := by
        simp at h; omega
      have h2 : tup.length - rest.length =
          (tup.length - rest.length - 1) + 1 := by
        simp at h; omega
      unfold add_tuple_var
      have hts := take_set_succ tup (tup.length - rest.length - 1) (some a) hi
      rw [← h2] at hts
      have h3 : tup.length - (a :: rest).length =
          tup.length - rest.length - 1 := by
        simp
        omega
      rw [hts, h3]
      simp

theorem forall₂_swap {k v : NTy} :
    ∀ {l : List (NVal × NVal)} {ps : List (PyObj × PyObj)},
      List.Forall₂ (entryEncodes k v) l ps →
      List.Forall₂ (fun pe e => convert k pe.1 (defaultVal k) = (true, e.1) ∧
        convert v pe.2 (defaultVal v) = (true, e.2)) ps l := by
  intro l ps h
  induction h with
  | nil => exact List.Forall₂.nil
  | cons h1 _ ih => exact List.Forall₂.cons ⟨h1.1.2, h1.2.2⟩ ih

/-! ## Claims -/

/-- C1 (amended): for every native type for which an encoder exists —
booleans, integrals (up to the 64-bit width of `long`), doubles, strings,
byte buffers of any length including 0, sequences including empty, and
key-unique maps including empty, nested arbitrarily — and every well-typed
value `x` of that type, encoding produces a dynamic object, and decoding
that object into a default-constructed output succeeds (returns `true`)
with output exactly `x`.  Native `std::tuple`s are excluded: the header
declares no `alloc_pyobject` overload for them, so their encoding is a
compile-time error (see `tuple_encode_has_no_overload`). -/
theorem decode_encode_roundtrip (t : NTy) (x : NVal) (ht : EncTy t)
    (hx : HasTy x t) :
    ∃ p, alloc_pyobject x = some p ∧ convert t p (defaultVal t) = (true, x) := by
  induction ht generalizing x with
  | @integral w s h1 h2 =>
      cases hx with
      | intv hr =>
          exact ⟨_, alloc_intv _, by
            rw [convert_integral_int, wrap_wrap64 _ _ _ h1 h2 hr]⟩
  | boolean =>
      cases hx with
      | boolv => exact ⟨_, alloc_boolv _, convert_boolean_bool _ _⟩
  | floating =>
      cases hx with
      | dblv => exact ⟨_, alloc_dblv _, convert_floating_float _ _⟩
  | strty =>
      cases hx with
      | strv => exact ⟨_, alloc_strv _, convert_strty_str _ _⟩
  | bytebuf =>
      cases hx with
      | bytesv => exact ⟨_, alloc_bytesv _, convert_bytebuf_bytes _ _⟩
  | @vec t ht ih =>
      cases hx with
      | seqv hl =>
          obtain ⟨ps, hps1, hps2⟩ := alloc_list_spec (fun y hy => ih y (hl y hy))
          refine ⟨.list ps, ?enc1, ?dec1⟩
          case enc1 => rw [alloc_seqv, hps1]; rfl
          case dec1 =>
            rw [defaultVal_vec, convert_vec_list, convert_list_success t hps2 []]
            simp
  | @mp k v hk hv ihk ihv =>
      cases hx with
      | mapv h1 h2 hpw =>
          obtain ⟨ps, hps⟩ := exists_entry_encodings
            (fun e he => ihk e.1 (h1 e he)) (fun e he => ihv e.2 (h2 e he))
          have halloc := alloc_map_build k v hps hpw [] (by simp)
          refine ⟨.dict ps, ?enc2, ?dec2⟩
          case enc2 => rw [alloc_mapv, halloc]; rfl
          case dec2 =>
            rw [defaultVal_mp, convert_mp_dict]
            have hdec := convert_map_entries k v (forall₂_swap hps) [] []
            rw [List.append_nil] at hdec
            rw [hdec, convert_map_nil, insertAll_fresh _ [] (by simp) hpw]
            simp

/-- C1 counterexample: the header declares no `alloc_pyobject` overload for
`std::tuple`, so encoding a native tuple value — here the 1-tuple holding
the int 1 — produces no dynamic object at all (in C++ the call does not
compile); the round-trip claim therefore cannot include fixed-arity
tuples. -/
theorem tuple_encode_has_no_overload :
    alloc_pyobject (.tupv [.intv 1]) = none :=
  alloc_tupv [.intv 1]

/-- C1 witness: the map `{1 ↦ "a", 2 ↦ "b"}` of type `std::map<int,
std::string>` encodes, and decoding the encoded dict back into an empty
default-constructed map recovers it exactly. -/
theorem decode_encode_roundtrip_witness :
    ∃ p,
      alloc_pyobject (.mapv [(.intv 1, .strv "a"), (.intv 2, .strv "b")]) =
        some p ∧
      convert (.mp (.integral true 32) .strty) p
          (defaultVal (.mp (.integral true 32) .strty)) =
        (true, .mapv [(.intv 1, .strv "a"), (.intv 2, .strv "b")]) :=
  decode_encode_roundtrip _ _
    (EncTy.mp (EncTy.integral (by norm_num) (by norm_num)) EncTy.strty)
    (HasTy.mapv
      (by
        intro e he
        rcases List.mem_cons.mp he with rfl | he
        · exact HasTy.intv (by norm_num [inRange])
        · rcases List.mem_cons.mp he with rfl | he
          · exact HasTy.intv (by norm_num [inRange])
          · simp at he)
      (by
        intro e he
        rcases List.mem_cons.mp he with rfl | he
        · exact HasTy.strv
        · rcases List.mem_cons.mp he with rfl | he
          · exact HasTy.strv
          · simp at he)
      (by simp))

/-- C2 (code bug): decoding the dynamic tuple `("x", 5)` into a native
`std::tuple<int, int>` previously holding `(7, 8)`: element 0 fails to
convert (string into int) and element 1 succeeds, yet the conversion
returns `true` — the recursive `add_to_tuple` call at header line 73
discards the boolean result of every element except the last, so a failure
of any element other than the last is silently ignored (the failed
element's slot keeps its prior value).  The claim (and the spec) say the
decode must return `false` as soon as any element fails. -/
theorem tuple_decode_reports_last_element_only :
    convert (.tup [.integral true 32, .integral true 32])
        (.tuple [.str "x", .int 5]) (.tupv [.intv 7, .intv 8]) =
      (true, .tupv [.intv 7, .intv 5]) := by
  rw [convert_tup_tuple, if_pos (by decide), add_to_tuple_cons, add_to_tuple_single,
    convert_integral_int,
    convert_tag_mismatch (.integral true 32) (.str "x") (.intv 7) (by decide)]
  norm_num [wrap]

/-- C3: the variadic call packs its arguments into the call tuple in
exactly the order supplied — the tuple built by `add_tuple_vars` inside
`call_function`, starting from the `args.length` NULL slots made by
`PyTuple_New`, holds argument `i` (0-based) at positional index `i`, even
though each index is computed as `PyTuple_Size(tup) - sizeof...(tail) - 1`
from the remaining-argument count during head/tail recursion. -/
theorem call_args_in_supplied_order (args : List PyObj) :
    add_tuple_vars (List.replicate args.length none) args = args.map some := by
  rw [add_tuple_vars_spec args _ (by simp)]
  simp

/-- C4: every scalar decode checks the dynamic object's runtime type tag
first; when the tag does not match the requested native type, it returns
`false` and leaves the output variable exactly as it was. -/
theorem scalar_decode_mismatch (t : NTy) (obj : PyObj) (prior : NVal)
    (hs : t.scalar) (h : NTy.tag t ≠ PyObj.tag obj) :
    convert t obj prior = (false, prior) :=
  convert_tag_mismatch t obj prior h

/-- C4 witness: decoding a dynamic string into an `int` variable holding 7
returns `false` and leaves the 7 in place. -/
theorem scalar_decode_mismatch_witness :
    convert (.integral true 32) (.str "boom") (.intv 7) = (false, .intv 7) :=
  scalar_decode_mismatch (.integral true 32) (.str "boom") (.intv 7)
    (by simp [NTy.scalar]) (by decide)

/-- C5: decoding into a native tuple of arity N returns `false` (leaving
the output untouched) whenever the dynamic object is not a tuple, or is a
tuple whose size differs from N — the size check precedes any element
conversion. -/
theorem tuple_decode_shape_mismatch (ts : List NTy) (obj : PyObj)
    (prior : NVal)
    (h : (∀ l, obj ≠ .tuple l) ∨ ∃ l, obj = .tuple l ∧ l.length ≠ ts.length) :
    convert (.tup ts) obj prior = (false, prior) := by
  rcases h with h | ⟨l, rfl, hlen⟩
  · refine convert_tag_mismatch _ _ _ ?tagm
    cases obj
    case tuple l => exact absurd rfl (h l)
    all_goals simp [NTy.tag, PyObj.tag]
  · cases prior
    case tupv vs => rw [convert_tup_tuple, if_neg hlen]
    all_goals simp [convert, hlen]

/-- C5 witness: a 3-element dynamic tuple decoded into a native tuple of
arity 2 is rejected. -/
theorem tuple_decode_shape_mismatch_witness :
    convert (.tup [.integral true 32, .integral true 32])
        (.tuple [.int 1, .int 2, .int 3]) (.tupv [.intv 0, .intv 0]) =
      (false, .tupv [.intv 0, .intv 0]) :=
  tuple_decode_shape_mismatch _ _ _ (Or.inr ⟨_, rfl, by decide⟩)

/-- C6: sequence decode requires the dynamic object to be a runtime list
(anything else is rejected with the output untouched); the elements are
decoded at indices 0..size-1 in ascending order, each into a fresh
default-constructed `T` appended on success, and when all elements decode
the operation returns `true` with the output container extended by exactly
the decoded elements, in order. -/
theorem list_decode_spec (t : NTy) (os : List PyObj) (ds : List NVal)
    (acc : List NVal)
    (h : List.Forall₂ (fun o d => convert t o (defaultVal t) = (true, d)) os ds) :
    (∀ (obj : PyObj) (prior : NVal), (∀ l, obj ≠ .list l) →
        convert (.vec t) obj prior = (false, prior)) ∧
    convert (.vec t) (.list os) (.seqv acc) = (true, .seqv (acc ++ ds)) := by
  constructor
  · intro obj prior hobj
    refine convert_tag_mismatch _ _ _ ?tagl
    cases obj
    case list l => exact absurd rfl (hobj l)
    all_goals simp [NTy.tag, PyObj.tag]
  · rw [convert_vec_list, convert_list_success t h acc]

/-- C6 witness: decoding the dynamic list `[1, 2]` into an empty
`std::vector<int>` succeeds with exactly `[1, 2]`, and decoding a non-list
(an int) into a vector is rejected with the output untouched. -/
theorem list_decode_spec_witness :
    convert (.vec (.integral true 32)) (.int 9) (.seqv [.intv 5]) =
      (false, .seqv [.intv 5]) ∧
    convert (.vec (.integral true 32)) (.list [.int 1, .int 2]) (.seqv []) =
      (true, .seqv [.intv 1, .intv 2]) := by
  have h := list_decode_spec (.integral true 32) [.int 1, .int 2]
    [.intv 1, .intv 2] []
    (List.Forall₂.cons (by rw [convert_integral_int]; norm_num [wrap])
      (List.Forall₂.cons (by rw [convert_integral_int]; norm_num [wrap])
        List.Forall₂.nil))
  exact ⟨h.1 (.int 9) (.seqv [.intv 5]) (by intro l hl; exact PyObj.noConfusion hl),
    by simpa using h.2⟩

/-- C7: mapping decode requires the dynamic object to be a runtime dict
(anything else is rejected with the output untouched); the dict's entries
are visited in the runtime's own iteration order, and a failure to decode
any single key — or, if the key decodes, its value — aborts the whole
conversion immediately with result `false`, while the entries already
inserted into the native map before the failure remain inserted. -/
theorem map_decode_abort (k v : NTy) (good : List (PyObj × PyObj))
    (bad : PyObj × PyObj) (rest : List (PyObj × PyObj))
    (ds : List (NVal × NVal)) (mp0 : List (NVal × NVal))
    (hgood : List.Forall₂ (fun pe e =>
        convert k pe.1 (defaultVal k) = (true, e.1) ∧
        convert v pe.2 (defaultVal v) = (true, e.2)) good ds)
    (hbad : (convert k bad.1 (defaultVal k)).1 = false ∨
        (convert v bad.2 (defaultVal v)).1 = false) :
    (∀ (obj : PyObj) (prior : NVal), (∀ es, obj ≠ .dict es) →
        convert (.mp k v) obj prior = (false, prior)) ∧
    convert (.mp k v) (.dict (good ++ bad :: rest)) (.mapv mp0) =
      (false, .mapv (ds.foldl (fun m d => Map.insert m d.1 d.2) mp0)) := by
  constructor
  · intro obj prior hobj
    refine convert_tag_mismatch _ _ _ ?tagd
    cases obj
    case dict es => exact absurd rfl (hobj es)
    all_goals simp [NTy.tag, PyObj.tag]
  · rw [convert_mp_dict, convert_map_entries k v hgood (bad :: rest) mp0,
      convert_map_cons]
    rcases hbad with hbad | hbad
    · rw [if_neg (by simp [hbad])]
    · by_cases hk : (convert k bad.1 (defaultVal k)).1 = true
      · rw [if_pos hk, if_neg (by simp [hbad])]
      · rw [if_neg hk]

/-- C7 witness: decoding the dict `{1 ↦ 2, "x" ↦ 3}` into an empty
`std::map<int, int>` fails on the second entry's key, returns `false`, and
the first entry, already inserted, remains in the output map. -/
theorem map_decode_abort_witness :
    convert (.mp (.integral true 32) (.integral true 32))
        (.dict [(.int 1, .int 2), (.str "x", .int 3)]) (.mapv []) =
      (false, .mapv [(.intv 1, .intv 2)]) := by
  have h := (map_decode_abort (.integral true 32) (.integral true 32)
    [(.int 1, .int 2)] (.str "x", .int 3) [] [(.intv 1, .intv 2)] []
    (List.Forall₂.cons
      ⟨by rw [convert_integral_int]; norm_num [wrap],
       by rw [convert_integral_int]; norm_num [wrap]⟩
      List.Forall₂.nil)
    (Or.inl (by
      rw [convert_tag_mismatch (.integral true 32) (.str "x") _ (by decide)]))).2
  simpa [Map.insert] using h

/-- C8 (code bug): the exactly-once-release invariant fails for the map
encoder.  A freshly encoded dict key or value is created with one
reference, `PyDict_SetItem` adds a second (it does not steal), and only
the dict's own reference is ever released — the source performs no
`Py_DECREF` — so after every release path has run, one reference remains
outstanding forever (`refcount mapChildEvents = 1`): a leak.  By contrast
a list element, stored by the stealing `PyList_SetItem`, ends balanced
(`refcount listChildEvents = 0`), as the claim demands for every encoded
object. -/
theorem map_encode_child_refcount :
    refcount mapChildEvents = 1 ∧ refcount listChildEvents = 0 :=
  ⟨rfl, rfl⟩

/-- C9: after the callable has been resolved, `call_function` fails with a
`std::runtime_error` carrying the function name exactly when the runtime
invocation returns no result, and otherwise wraps the returned
(already-owned) reference in a new Façade — the success path never
fails. -/
theorem call_function_invocation
    (invoke : PyObj → List (Option PyObj) → Option PyObj)
    (func : PyObj) (name : String) (args : List PyObj) :
    (invoke func (add_tuple_vars (List.replicate args.length none) args) =
        none →
      call_function invoke func name args =
        Except.error ("Failed to call function " ++ name)) ∧
    (∀ ret,
      invoke func (add_tuple_vars (List.replicate args.length none) args) =
          some ret →
      call_function invoke func name args = Except.ok ⟨ret⟩) := by
  constructor
  · intro h
    unfold call_function
    simp [h]
  · intro ret h
    unfold call_function
    simp [h]

/-- C9 witness: with a runtime that fails the invocation, `call_function`
reports the failure naming the function; with one that returns an object,
it returns the wrapping Façade. -/
theorem call_function_invocation_witness :
    call_function (fun _ _ => none) (.int 0) "f" [] =
      Except.error ("Failed to call function " ++ "f") ∧
    call_function (fun _ _ => some (.int 7)) (.int 0) "f" [] =
      Except.ok ⟨.int 7⟩ :=
  ⟨(call_function_invocation (fun _ _ => none) (.int 0) "f" []).1 rfl,
   (call_function_invocation (fun _ _ => some (.int 7)) (.int 0) "f" []).2
     (.int 7) rfl⟩

/-- C10: integral decode performs no range check: any dynamic integer is
accepted (the decode returns `true` for every stored value `n`), and the
value is stored through an unchecked narrowing conversion, so the stored
result is congruent to the extracted value modulo `2 ^ w`, `w` the bit
width of the target type. -/
theorem integral_decode_unchecked_narrowing (s : Bool) (w : Nat) (n : Int)
    (prior : NVal) :
    convert (.integral s w) (.int n) prior = (true, .intv (wrap s w n)) ∧
    wrap s w n % 2 ^ w = n % 2 ^ w :=
  ⟨convert_integral_int s w n prior, wrap_emod s w n⟩

end Python
